import Mathlib

/-! Request pipeline of `abcd`: middleware and user creation.

A shallow embedding of `router/middleware.go` (`NoDirListing`, `ValidateAuth`,
`GzipContent`, `Authorize`) and of `services/user_service.go`
(`SanitizeUsername`, `FindByUsername`, `EncryptPassword`, `Create`).

Handlers are state transformers over a `World` that records every call made on
a response writer or on the logger, in order.  Go values of interface type are
tagged unions, pointers that the code dereferences are `Option`s, and a run
ends either by returning an `error` value or by panicking.
-/

set_option autoImplicit false

namespace Abcd

/-! ## Values -/

/-- A Go `error` value that is not nil.  `fmt.Errorf` is called in the source
with a format string without verbs; the operand printed after it is left out of
`msg`. -/
structure GoError where
  msg : String
deriving DecidableEq, Repr

/-- The function `fmt.Errorf`, applied to its format string. -/
def fmt.Errorf (format : String) : GoError := ⟨format⟩

/-- The type `http.Header`: a map from canonical header names to the values
sent under that name.  The first binding of a key is the map entry. -/
abbrev Header := List (String × List String)

/-- The method `Header.Values`: all values stored under `key`. -/
def Header.Values (h : Header) (key : String) : List String :=
  (h.lookup key).getD []

/-- The method `Header.Get`: the first value stored under `key`, or `""`.  The
keys used in the source are already in canonical form. -/
def Header.Get (h : Header) (key : String) : String :=
  (Header.Values h key).headD ""

/-- The method `Header.Add`: append `value` to the values of `key`. -/
def Header.Add (h : Header) (key value : String) : Header :=
  (key, Header.Values h key ++ [value]) :: h

/-- The method `Header.Set`: replace the values of `key` by `value` alone. -/
def Header.Set (h : Header) (key value : String) : Header :=
  (key, [value]) :: h

/-- The part of `url.URL` the middleware reads. -/
structure URL where
  Path : String
deriving DecidableEq, Repr

/-- The part of `*http.Request` the middleware reads. -/
structure Request where
  URL : URL
  Header : Header
deriving DecidableEq, Repr

/-- Modelled from the spec: the struct `router.SessionData`, declared in a file
of the router package that is not part of the sources read here.  It names the
authenticated principal and carries the two role flags. -/
structure SessionData where
  UserId : Int
  IsAdmin : Bool
  IsTeacher : Bool
deriving DecidableEq, Repr

/-- Modelled from the spec: the interface `router.Route`, declared in a file of
the router package that is not part of the sources read here.  A route value is
represented by what its method `RequiredRoles()` returns. -/
structure Route where
  requiredRoles : List String
deriving DecidableEq, Repr

/-- The method `Route.RequiredRoles`. -/
def Route.RequiredRoles (route : Route) : List String := route.requiredRoles

/-- A value stored in `session.Values`: a `*SessionData` (possibly a nil
pointer) or a value of some other dynamic type. -/
inductive SessionValue
  | sessionData (p : Option SessionData)
  | other (typ : String)
deriving DecidableEq, Repr

/-- The type `sessions.Session`, reduced to its `Values` map. -/
structure Session where
  Values : List (String × SessionValue)
deriving DecidableEq, Repr

/-- The object a non-nil `*sessions.CookieStore` points to, represented by the
behaviour of its method `Get(r, name)`, which returns a `*Session` (possibly
nil) and an `error` (possibly nil). -/
structure CookieStore where
  Get : Request → String → Option Session × Option GoError

/-- A non-nil value of interface type `interface{}` as found in a context:
tagged by its dynamic type. -/
inductive Any
  | cookieStore (p : Option CookieStore)
  | sessionData (p : Option SessionData)
  | route (route : Route)
  | other (typ : String)

/-- A `context.Context`: the empty context or `context.WithValue(parent, key,
val)`.  A `val` of `none` is the nil interface value. -/
inductive Context
  | Background
  | WithValue (parent : Context) (key : String) (val : Option Any)

/-- The method `Context.Value`: the value bound to `key` by the innermost
binding of that key, or nil. -/
def Context.Value : Context → String → Option Any
  | .Background, _ => none
  | .WithValue parent key val, k => if k = key then val else parent.Value k

/-- The type assertion `v.(*sessions.CookieStore)` with its `ok` result: it
succeeds for every value of that pointer type, the nil pointer included. -/
def assertCookieStore : Option Any → Option (Option CookieStore)
  | some (.cookieStore p) => some p
  | _ => none

/-- The call `cookieStore.Get(r, name)` through the pointer.  On a nil pointer
the library dereferences the receiver while it builds the session, and the
call panics: that is `none`. -/
def sessions.Get (cookieStore : Option CookieStore) (r : Request) (name : String) :
    Option (Option Session × Option GoError) :=
  match cookieStore with
  | none => none
  | some store => some (store.Get r name)

/-- The type assertion `v.(*SessionData)` on a context value: it succeeds for
every value of that pointer type, the nil pointer included. -/
def assertSessionData : Option Any → Option (Option SessionData)
  | some (.sessionData p) => some p
  | _ => none

/-- The type assertion `v.(Route)`. -/
def assertRoute : Option Any → Option Route
  | some (.route route) => some route
  | _ => none

/-- The type assertion `session.Values["data"].(*SessionData)`. -/
def assertSessionValue : Option SessionValue → Option (Option SessionData)
  | some (.sessionData p) => some p
  | _ => none

/-! ## Response writers and the world -/

/-- A reference to an `http.ResponseWriter`: the writer of a connection, or a
`*httputils.GzipResponseWriter` created around another writer. -/
inductive ResponseWriter
  | conn (id : Nat)
  | gzip (id : Nat) (w : ResponseWriter)
deriving DecidableEq, Repr

/-- One call observed at the boundary of the middleware. -/
inductive Event
  | HeaderAdd (w : ResponseWriter) (key value : String)
  | HeaderSet (w : ResponseWriter) (key value : String)
  | WriteHeader (w : ResponseWriter) (code : Nat)
  | Write (w : ResponseWriter) (p : String)
  | LogPrintln (v : String)
  | NewGzipResponseWriter (w gz : ResponseWriter)
  | Close (gz : ResponseWriter)
  | Handled (ctx : Context) (w : ResponseWriter) (r : Request)

/-- The mutable world of one request: the calls made so far, oldest first, and
the identity the next allocated writer gets. -/
structure World where
  trace : List Event
  nextId : Nat

/-- Append one event to the trace. -/
def World.emit (s : World) (e : Event) : World :=
  { s with trace := s.trace ++ [e] }

/-- How a call of a handler ends: it returns its `error` result (nil or not),
or it panics. -/
inductive Outcome
  | returned (err : Option GoError)
  | panicked (msg : String)
deriving DecidableEq, Repr

/-- The type `httputils.APIHandler`:
`func(ctx context.Context, w http.ResponseWriter, r *http.Request) error`. -/
abbrev APIHandler := Context → ResponseWriter → Request → World → World × Outcome

/-- The panic raised by dereferencing a nil pointer. -/
def nilDereference : String :=
  "runtime error: invalid memory address or nil pointer dereference"

/-! ## Library functions -/

/-- The function `strings.HasSuffix`. -/
def strings.HasSuffix (s suffix : String) : Bool :=
  suffix.data.isSuffixOf s.data

/-- Whether `substr` occurs in `s` at some position. -/
def strings.containsAt (substr : List Char) : List Char → Bool
  | [] => substr.isEmpty
  | c :: cs => substr.isPrefixOf (c :: cs) || strings.containsAt substr cs

/-- The function `strings.Contains`. -/
def strings.Contains (s substr : String) : Bool :=
  strings.containsAt substr.data s.data

/-- The constant `http.StatusUnauthorized`. -/
def http.StatusUnauthorized : Nat := 401

/-- The constant `http.StatusForbidden`. -/
def http.StatusForbidden : Nat := 403

/-- The constant `http.StatusNotFound`. -/
def http.StatusNotFound : Nat := 404

/-- The function `http.StatusText`, restricted to the codes listed here; as in
the library, the empty string for a code it does not know. -/
def http.StatusText (code : Nat) : String :=
  if code = 400 then "Bad Request"
  else if code = 401 then "Unauthorized"
  else if code = 402 then "Payment Required"
  else if code = 403 then "Forbidden"
  else if code = 404 then "Not Found"
  else if code = 405 then "Method Not Allowed"
  else if code = 500 then "Internal Server Error"
  else if code = 501 then "Not Implemented"
  else if code = 502 then "Bad Gateway"
  else if code = 503 then "Service Unavailable"
  else ""

/-- The function `http.Error`: set the two plain-text headers, write the status
line, and print the message followed by a newline. -/
def http.Error (w : ResponseWriter) (error : String) (code : Nat) (s : World) : World :=
  let s := s.emit (.HeaderSet w "Content-Type" "text/plain; charset=utf-8")
  let s := s.emit (.HeaderSet w "X-Content-Type-Options" "nosniff")
  let s := s.emit (.WriteHeader w code)
  s.emit (.Write w (error ++ "\n"))

/-- The function `http.NotFound`. -/
def http.NotFound (w : ResponseWriter) (_r : Request) (s : World) : World :=
  http.Error w "404 page not found" http.StatusNotFound s

/-- The function `log.Println`, applied to an error. -/
def log.Println (err : GoError) (s : World) : World :=
  s.emit (.LogPrintln err.msg)

/-- Modelled from the spec: `httputils.NewGzipResponseWriter`, whose source is
not among the files read here.  It wraps `w` in a new compressing decorator. -/
def httputils.NewGzipResponseWriter (w : ResponseWriter) (s : World) :
    ResponseWriter × World :=
  let gz := ResponseWriter.gzip s.nextId w
  (gz, { trace := s.trace ++ [.NewGzipResponseWriter w gz], nextId := s.nextId + 1 })

/-- Modelled from the spec: the method `Close` of the compressing decorator,
whose source is not among the files read here.  It finalizes the decorator. -/
def httputils.Close (gz : ResponseWriter) (s : World) : World :=
  s.emit (.Close gz)

/-! ## The middleware -/

/-- The middleware `NoDirListing`. -/
def NoDirListing (h : APIHandler) : APIHandler := fun ctx w r s =>
  let urlPath := r.URL.Path
  if strings.HasSuffix urlPath "/" then
    let s := http.NotFound w r s
    (s, .returned none)
  else
    h ctx w r s

/-- The middleware `ValidateAuth`.  The constant `SessionCookieName` is declared
outside the sources read here and is a parameter. -/
def ValidateAuth (SessionCookieName : String) (h : APIHandler) : APIHandler :=
  fun ctx w r s =>
    match assertCookieStore (ctx.Value "cookieStore") with
    | none =>
      (s, .returned (some (fmt.Errorf "validate auth: could not cast value as cookie store:")))
    | some cookieStore =>
      match sessions.Get cookieStore r SessionCookieName with
      | none => (s, .panicked nilDereference)
      | some (_, some err) =>
        let s := log.Println err s
        let s := http.Error w (http.StatusText http.StatusUnauthorized) http.StatusUnauthorized s
        (s, .returned none)
      | some (none, none) => (s, .panicked nilDereference)
      | some (some session, none) =>
        match assertSessionValue (session.Values.lookup "data") with
        | none =>
          let s := http.Error w (http.StatusText http.StatusUnauthorized) http.StatusUnauthorized s
          (s, .returned none)
        | some sessionData =>
          let authenticatedContext := Context.WithValue ctx "sessionData" (some (.sessionData sessionData))
          h authenticatedContext w r s

/-- The middleware `GzipContent`.  The deferred `Close` runs when the function
is left, whether `h` returned or panicked. -/
def GzipContent (h : APIHandler) : APIHandler := fun ctx w r s =>
  let s := s.emit (.HeaderAdd w "Vary" "Accept-Encoding")
  if !strings.Contains (r.Header.Get "Accept-Encoding") "gzip" then
    h ctx w r s
  else
    let s := s.emit (.HeaderSet w "Content-Encoding" "gzip")
    let (gzipResponseWriter, s) := httputils.NewGzipResponseWriter w s
    let (s, out) := h ctx gzipResponseWriter r s
    (httputils.Close gzipResponseWriter s, out)

/-- The condition `role == name && sessionData.Flag` with the short-circuit of
`&&`: the pointer is dereferenced only when the names are equal, and `none` is
the nil-pointer panic. -/
def roleAnd (eq : Bool) (flag : Option Bool) : Option Bool :=
  if eq then flag else some false

/-- The `for _, role := range requiredRoles` loop of `Authorize`.  `none` means
that the loop ended without returning. -/
def Authorize.loop (h : APIHandler) (ctx : Context) (w : ResponseWriter) (r : Request)
    (sessionData : Option SessionData) (s : World) : List String → Option (World × Outcome)
  | [] => none
  | role :: rest =>
    match roleAnd (role == "ADMIN") (sessionData.map (·.IsAdmin)) with
    | none => some (s, .panicked nilDereference)
    | some true => some (h ctx w r s)
    | some false =>
      match roleAnd (role == "TEACHER") (sessionData.map (·.IsTeacher)) with
      | none => some (s, .panicked nilDereference)
      | some true => some (h ctx w r s)
      | some false => Authorize.loop h ctx w r sessionData s rest

/-- The middleware `Authorize`. -/
def Authorize (h : APIHandler) : APIHandler := fun ctx w r s =>
  match assertSessionData (ctx.Value "sessionData") with
  | none =>
    (s, .returned (some (fmt.Errorf "authorize: could not cast value as session data:")))
  | some sessionData =>
    match assertRoute (ctx.Value "route") with
    | none =>
      (s, .returned (some (fmt.Errorf "authorize: could not cast value as route:")))
    | some route =>
      let requiredRoles := route.RequiredRoles
      if requiredRoles.length = 0 then
        h ctx w r s
      else
        match Authorize.loop h ctx w r sessionData s requiredRoles with
        | some result => result
        | none =>
          let s := http.Error w (http.StatusText http.StatusForbidden) http.StatusForbidden s
          (s, .returned none)

/-! ## Observations on a trace -/

/-- The status code of a `WriteHeader` call on writer `w`. -/
def Event.statusOn (w : ResponseWriter) : Event → Option Nat
  | .WriteHeader w1 code => if w1 = w then some code else none
  | _ => none

/-- The chunk of a `Write` call on writer `w`. -/
def Event.chunkOn (w : ResponseWriter) : Event → Option String
  | .Write w1 p => if w1 = w then some p else none
  | _ => none

/-- Whether the event is a `Close` call on the writer `gz`. -/
def Event.isClose (gz : ResponseWriter) : Event → Bool
  | .Close g => decide (g = gz)
  | _ => false

/-- Whether the event records a handler invocation. -/
def Event.isHandled : Event → Bool
  | .Handled _ _ _ => true
  | _ => false

/-- The effect of one event on the header map of writer `w`. -/
def Event.onHeader (w : ResponseWriter) (hd : Header) : Event → Header
  | .HeaderAdd w1 key value => if w1 = w then Header.Add hd key value else hd
  | .HeaderSet w1 key value => if w1 = w then Header.Set hd key value else hd
  | _ => hd

/-- The status codes passed to `WriteHeader` on writer `w`, in order. -/
def statusWrites (w : ResponseWriter) (tr : List Event) : List Nat :=
  tr.filterMap (Event.statusOn w)

/-- The chunks passed to `Write` on writer `w`, in order. -/
def bodyWrites (w : ResponseWriter) (tr : List Event) : List String :=
  tr.filterMap (Event.chunkOn w)

/-- How many times `Close` was called on the writer `gz`. -/
def closeCount (gz : ResponseWriter) (tr : List Event) : Nat :=
  tr.countP (Event.isClose gz)

/-- How many handler invocations the trace records. -/
def callCount (tr : List Event) : Nat :=
  tr.countP Event.isHandled

/-- The header map of writer `w` after the `Header().Add` and `Header().Set`
calls of the trace, starting from the map `h0`. -/
def headerAfter (w : ResponseWriter) (h0 : Header) (tr : List Event) : Header :=
  tr.foldl (Event.onHeader w) h0

/-- A recording handler: it notes the context, writer and request it was
called with and returns `out`. -/
def spy (out : Outcome) : APIHandler := fun ctx w r s =>
  (s.emit (.Handled ctx w r), out)

/-! ## The user service -/

/-- The struct `models.User`, with the fields that `user_service.go` reads and
writes; it is declared in a package outside the sources read here. -/
structure User where
  Id : Int
  Username : String
  Email : String
  Password : String
  FirstName : String
  LastName : String
  Status : Int
  IsAdmin : Bool
  IsTeacher : Bool
deriving DecidableEq, Repr

/-- The error values of the services: the two sentinel errors of the package,
the sentinel `gorm.RecordNotFound`, and any other error of the database driver
or of the password hasher. -/
inductive ServiceError
  | DuplicateUsernameError
  | RecordNotFound
  | gormRecordNotFound
  | other (msg : String)
deriving DecidableEq, Repr

/-- The type `UserStatus`; `Enabled` is the first constant of the `iota`
block. -/
def Enabled : Int := 0

/-- The second constant of the `UserStatus` block. -/
def Disabled : Int := 1

/-- The database behind `*gorm.DB`: the rows of table `users` in primary-key
order, the key the next inserted row gets, and a fault that makes every
statement fail when it is set. -/
structure DB where
  users : List User
  nextId : Int
  fault : Option String
deriving DecidableEq, Repr

/-- The query `db.Where(cond).First(user).Error`: the first row that satisfies
the condition, or `gorm.RecordNotFound`. -/
def DB.First (db : DB) (cond : User → Bool) : Except ServiceError User :=
  match db.fault with
  | some msg => .error (.other msg)
  | none =>
    match db.users.find? cond with
    | some user => .ok user
    | none => .error .gormRecordNotFound

/-- The statement `db.Create(&user).Error`: insert the row, giving it the next
key when its key is blank. -/
def DB.Create (db : DB) (user : User) : DB × User × Option ServiceError :=
  match db.fault with
  | some msg => (db, user, some (.other msg))
  | none =>
    if user.Id = 0 then
      let row := { user with Id := db.nextId }
      ({ db with users := db.users ++ [row], nextId := db.nextId + 1 }, row, none)
    else
      ({ db with users := db.users ++ [user] }, user, none)

/-- The function `strings.Trim`: drop the leading and trailing characters that
are in `cutset`. -/
def strings.Trim (s cutset : String) : String :=
  ⟨((s.data.dropWhile cutset.data.contains).reverse.dropWhile cutset.data.contains).reverse⟩

/-- The function `strings.ToLower`, on the ASCII letters. -/
def strings.ToLower (s : String) : String :=
  ⟨s.data.map Char.toLower⟩

/-- The struct `userService`. -/
structure userService where
  db : DB
deriving DecidableEq, Repr

/-- The method `SanitizeUsername`. -/
def userService.SanitizeUsername (_s : userService) (username : String) : String :=
  let sanitizedString := strings.Trim username " "
  let sanitizedString := strings.ToLower sanitizedString
  sanitizedString

/-- The method `FindByUsername`. -/
def userService.FindByUsername (s : userService) (username : String) :
    Except ServiceError (Option User) :=
  let username := s.SanitizeUsername username
  match s.db.First (fun user => user.Username == username) with
  | .error err => if err ≠ .gormRecordNotFound then .error err else .ok none
  | .ok user => .ok (some user)

/-- The method `FindByEmail`. -/
def userService.FindByEmail (s : userService) (email : String) :
    Except ServiceError (Option User) :=
  match s.db.First (fun user => user.Email == email) with
  | .error err => if err ≠ .gormRecordNotFound then .error err else .ok none
  | .ok user => .ok (some user)

/-- The method `EncryptPassword`.  The hasher `bcrypt.GenerateFromPassword` is
a parameter. -/
def userService.EncryptPassword (GenerateFromPassword : String → Nat → Except ServiceError String)
    (_s : userService) (password : String) : Except ServiceError String :=
  match GenerateFromPassword password 10 with
  | .error err => .error err
  | .ok hashedPassword => .ok hashedPassword

/-- The method `Create`.  It returns the service with its database after the
call, the user record as the call leaves it, and the `error` result. -/
def userService.Create (GenerateFromPassword : String → Nat → Except ServiceError String)
    (s : userService) (user : User) : userService × User × Option ServiceError :=
  let user := { user with Username := s.SanitizeUsername user.Username }
  match s.FindByUsername user.Username with
  | .error err => (s, user, some err)
  | .ok (some _) => (s, user, some .DuplicateUsernameError)
  | .ok none =>
    match s.EncryptPassword GenerateFromPassword user.Password with
    | .error err => (s, user, some err)
    | .ok hashedPassword =>
      let user := { user with Password := hashedPassword, Status := Enabled }
      match s.db.Create user with
      | (db, user, some err) => ({ s with db := db }, user, some err)
      | (db, user, none) => ({ s with db := db }, user, none)

/-- A stand-in for the hasher that always succeeds. -/
def sampleHasher : String → Nat → Except ServiceError String :=
  fun password _ => .ok ("$2a$10$" ++ password)

/-- A stored user named `alice`. -/
def aliceRow : User :=
  ⟨1, "alice", "a@example.org", "$2a$10$x", "Alice", "A", 0, false, true⟩

/-- A new user named `bob` with the email of `alice`. -/
def bobInput : User :=
  ⟨0, "Bob", "a@example.org", "secret", "Bob", "B", 0, false, false⟩

/-! ## The accepted encodings of a request, as the specification words them -/

/-- Split a character list at every occurrence of `sep`. -/
def splitOnChar (sep : Char) : List Char → List (List Char)
  | [] => [[]]
  | c :: cs =>
    if c = sep then [] :: splitOnChar sep cs
    else
      match splitOnChar sep cs with
      | [] => [[c]]
      | x :: xs => (c :: x) :: xs

/-- Drop the spaces and tabs at both ends of a character list. -/
def trimBlanks (l : List Char) : List Char :=
  ((l.dropWhile (fun c => c == ' ' || c == '\t')).reverse.dropWhile
    (fun c => c == ' ' || c == '\t')).reverse

/-- The weights that mean "not acceptable": `q=0` with up to three zero
decimals. -/
def zeroWeights : List (List Char) :=
  ["q=0".data, "q=0.".data, "q=0.0".data, "q=0.00".data, "q=0.000".data]

/-- Stated from the specification, not from the code: one element of an
`Accept-Encoding` list accepts gzip when its coding name is `gzip` and it has no
weight of zero. -/
def Spec.elementAcceptsGzip (element : List Char) : Bool :=
  match splitOnChar ';' element with
  | [] => false
  | name :: params =>
    trimBlanks name == "gzip".data &&
      !(params.any (fun param => zeroWeights.contains (trimBlanks param)))

/-- Stated from the specification, not from the code: the client's accepted
encodings include gzip, that is, some element of the comma-separated lists the
request sends under `Accept-Encoding` accepts gzip. -/
def Spec.clientAcceptsGzip (r : Request) : Bool :=
  (Header.Values r.Header "Accept-Encoding").any
    (fun value => (splitOnChar ',' value.data).any Spec.elementAcceptsGzip)

/-! ## Facts about the library functions and the observations -/

theorem strings.containsAt_iff (substr s : List Char) :
    strings.containsAt substr s = true ↔ substr <:+: s := by
  induction s with
  | nil => simp [strings.containsAt, List.isEmpty_iff]
  | cons c cs ih =>
    simp only [strings.containsAt, Bool.or_eq_true, ih, List.isPrefixOf_iff_prefix,
      List.infix_cons_iff]

theorem strings.Contains_iff (s substr : String) :
    strings.Contains s substr = true ↔ substr.data <:+: s.data := by
  simp [strings.Contains, strings.containsAt_iff]

theorem strings.HasSuffix_iff (s suffix : String) :
    strings.HasSuffix s suffix = true ↔ suffix.data <:+ s.data := by
  simp [strings.HasSuffix]

theorem statusWrites_Error (w : ResponseWriter) (msg : String) (code : Nat) (s : World) :
    statusWrites w (http.Error w msg code s).trace = statusWrites w s.trace ++ [code] := by
  simp [statusWrites, http.Error, World.emit, List.filterMap_append, Event.statusOn]

theorem bodyWrites_Error (w : ResponseWriter) (msg : String) (code : Nat) (s : World) :
    bodyWrites w (http.Error w msg code s).trace = bodyWrites w s.trace ++ [msg ++ "\n"] := by
  simp [bodyWrites, http.Error, World.emit, List.filterMap_append, Event.chunkOn]

theorem callCount_Error (w : ResponseWriter) (msg : String) (code : Nat) (s : World) :
    callCount (http.Error w msg code s).trace = callCount s.trace := by
  simp [callCount, http.Error, World.emit, List.countP_append, Event.isHandled]

theorem callCount_Println (err : GoError) (s : World) :
    callCount (log.Println err s).trace = callCount s.trace := by
  simp [callCount, log.Println, World.emit, List.countP_append, Event.isHandled]

theorem Authorize.loop_none (h : APIHandler) (ctx : Context) (w : ResponseWriter)
    (r : Request) (sd : SessionData) (s : World) (roles : List String)
    (hadmin : ¬ ("ADMIN" ∈ roles ∧ sd.IsAdmin = true))
    (hteacher : ¬ ("TEACHER" ∈ roles ∧ sd.IsTeacher = true)) :
    Authorize.loop h ctx w r (some sd) s roles = none := by
  induction roles with
  | nil => rfl
  | cons role rest ih =>
    have ha : ¬ (role = "ADMIN" ∧ sd.IsAdmin = true) := fun hc =>
      hadmin ⟨by simp [hc.1], hc.2⟩
    have ht : ¬ (role = "TEACHER" ∧ sd.IsTeacher = true) := fun hc =>
      hteacher ⟨by simp [hc.1], hc.2⟩
    have ih1 := ih (fun hc => hadmin ⟨List.mem_cons_of_mem _ hc.1, hc.2⟩)
      (fun hc => hteacher ⟨List.mem_cons_of_mem _ hc.1, hc.2⟩)
    have e1 : roleAnd (role == "ADMIN") (some sd.IsAdmin) = some false := by
      unfold roleAnd
      by_cases hr : role = "ADMIN"
      · have : sd.IsAdmin = false := by simpa using fun hx => ha ⟨hr, hx⟩
        simp [hr, this]
      · simp [hr]
    have e2 : roleAnd (role == "TEACHER") (some sd.IsTeacher) = some false := by
      unfold roleAnd
      by_cases hr : role = "TEACHER"
      · have : sd.IsTeacher = false := by simpa using fun hx => ht ⟨hr, hx⟩
        simp [hr, this]
      · simp [hr]
    simp only [Authorize.loop, Option.map_some', e1, e2, ih1]

theorem Authorize.loop_some (h : APIHandler) (ctx : Context) (w : ResponseWriter)
    (r : Request) (sd : SessionData) (s : World) (roles : List String)
    (hrole : ("ADMIN" ∈ roles ∧ sd.IsAdmin = true) ∨
      ("TEACHER" ∈ roles ∧ sd.IsTeacher = true)) :
    Authorize.loop h ctx w r (some sd) s roles = some (h ctx w r s) := by
  induction roles with
  | nil => simp at hrole
  | cons role rest ih =>
    by_cases h1 : role = "ADMIN" ∧ sd.IsAdmin = true
    · simp [Authorize.loop, roleAnd, h1.1, h1.2]
    · have e1 : roleAnd (role == "ADMIN") (some sd.IsAdmin) = some false := by
        unfold roleAnd
        by_cases hr : role = "ADMIN"
        · have : sd.IsAdmin = false := by simpa using fun hx => h1 ⟨hr, hx⟩
          simp [hr, this]
        · simp [hr]
      by_cases h2 : role = "TEACHER" ∧ sd.IsTeacher = true
      · simp [Authorize.loop, e1, roleAnd, h2.1, h2.2]
      · have e2 : roleAnd (role == "TEACHER") (some sd.IsTeacher) = some false := by
          unfold roleAnd
          by_cases hr : role = "TEACHER"
          · have : sd.IsTeacher = false := by simpa using fun hx => h2 ⟨hr, hx⟩
            simp [hr, this]
          · simp [hr]
        have hrest : ("ADMIN" ∈ rest ∧ sd.IsAdmin = true) ∨
            ("TEACHER" ∈ rest ∧ sd.IsTeacher = true) := by
          rcases hrole with ⟨hm, hf⟩ | ⟨hm, hf⟩
          · rcases List.mem_cons.1 hm with he | hm1
            · exact absurd ⟨he.symm, hf⟩ h1
            · exact Or.inl ⟨hm1, hf⟩
          · rcases List.mem_cons.1 hm with he | hm1
            · exact absurd ⟨he.symm, hf⟩ h2
            · exact Or.inr ⟨hm1, hf⟩
        simp only [Authorize.loop, Option.map_some', e1, e2, ih hrest]

theorem Authorize_unfold (h : APIHandler) (ctx : Context) (w : ResponseWriter)
    (r : Request) (s : World) (p : Option SessionData) (route : Route)
    (hsd : ctx.Value "sessionData" = some (.sessionData p))
    (hroute : ctx.Value "route" = some (.route route)) :
    Authorize h ctx w r s =
      if route.RequiredRoles.length = 0 then h ctx w r s
      else match Authorize.loop h ctx w r p s route.RequiredRoles with
        | some result => result
        | none => (http.Error w (http.StatusText http.StatusForbidden) http.StatusForbidden s,
            .returned none) := by
  simp [Authorize, hsd, hroute, assertSessionData, assertRoute]

theorem statusWrites_Println (w : ResponseWriter) (err : GoError) (s : World) :
    statusWrites w (log.Println err s).trace = statusWrites w s.trace := by
  simp [statusWrites, log.Println, World.emit, List.filterMap_append, Event.statusOn]

theorem bodyWrites_Println (w : ResponseWriter) (err : GoError) (s : World) :
    bodyWrites w (log.Println err s).trace = bodyWrites w s.trace := by
  simp [bodyWrites, log.Println, World.emit, List.filterMap_append, Event.chunkOn]

theorem strings.HasSuffix_slash (s : String) :
    strings.HasSuffix s "/" = true ↔ ∃ p : String, s = p ++ "/" := by
  rw [strings.HasSuffix_iff]
  constructor
  · rintro ⟨t, ht⟩
    exact ⟨⟨t⟩, String.ext (by simpa using ht.symm)⟩
  · rintro ⟨p, hp⟩
    exact ⟨p.data, by simp [hp]⟩

theorem ValidateAuth_unfold (name : String) (h : APIHandler) (ctx : Context)
    (w : ResponseWriter) (r : Request) (s : World) (store : CookieStore)
    (hstore : ctx.Value "cookieStore" = some (.cookieStore (some store))) :
    ValidateAuth name h ctx w r s =
      match store.Get r name with
      | (_, some err) =>
        (http.Error w (http.StatusText http.StatusUnauthorized) http.StatusUnauthorized
          (log.Println err s), .returned none)
      | (none, none) => (s, .panicked nilDereference)
      | (some session, none) =>
        match assertSessionValue (session.Values.lookup "data") with
        | none =>
          (http.Error w (http.StatusText http.StatusUnauthorized) http.StatusUnauthorized s,
            .returned none)
        | some sessionData =>
          h (Context.WithValue ctx "sessionData" (some (.sessionData sessionData))) w r s := by
  simp only [ValidateAuth, hstore, assertCookieStore, sessions.Get]
  rcases store.Get r name with ⟨_ | session, _ | err⟩ <;> rfl

theorem assertSessionValue_none (v : Option SessionValue)
    (hv : ∀ p, v ≠ some (.sessionData p)) : assertSessionValue v = none := by
  match v, hv with
  | none, _ => rfl
  | some (.other _), _ => rfl
  | some (.sessionData p), hv => exact absurd rfl (hv p)

theorem assertSessionData_none (v : Option Any)
    (hv : ∀ p, v ≠ some (.sessionData p)) : assertSessionData v = none := by
  match v, hv with
  | none, _ => rfl
  | some (.other _), _ => rfl
  | some (.cookieStore _), _ => rfl
  | some (.route _), _ => rfl
  | some (.sessionData p), hv => exact absurd rfl (hv p)

theorem assertRoute_none (v : Option Any)
    (hv : ∀ route, v ≠ some (.route route)) : assertRoute v = none := by
  match v, hv with
  | none, _ => rfl
  | some (.other _), _ => rfl
  | some (.cookieStore _), _ => rfl
  | some (.sessionData _), _ => rfl
  | some (.route route), hv => exact absurd rfl (hv route)

theorem assertCookieStore_none (v : Option Any)
    (hv : ∀ p, v ≠ some (.cookieStore p)) : assertCookieStore v = none := by
  match v, hv with
  | none, _ => rfl
  | some (.other _), _ => rfl
  | some (.route _), _ => rfl
  | some (.sessionData _), _ => rfl
  | some (.cookieStore cs), hv => exact absurd rfl (hv cs)

theorem Header.Values_Add_self (hd : Header) (key value : String) :
    Header.Values (Header.Add hd key value) key = Header.Values hd key ++ [value] := by
  simp [Header.Values, Header.Add, List.lookup]

theorem Header.Values_Add_ne (hd : Header) (key value other : String) (hne : other ≠ key) :
    Header.Values (Header.Add hd key value) other = Header.Values hd other := by
  have hb : (other == key) = false := by simpa using hne
  simp [Header.Values, Header.Add, List.lookup, hb]

theorem Header.Values_Set_self (hd : Header) (key value : String) :
    Header.Values (Header.Set hd key value) key = [value] := by
  simp [Header.Values, Header.Set, List.lookup]

theorem Header.Values_Set_ne (hd : Header) (key value other : String) (hne : other ≠ key) :
    Header.Values (Header.Set hd key value) other = Header.Values hd other := by
  have hb : (other == key) = false := by simpa using hne
  simp [Header.Values, Header.Set, List.lookup, hb]

theorem Spec.clientAcceptsGzip_examples :
    Spec.clientAcceptsGzip ⟨⟨"/"⟩, [("Accept-Encoding", ["gzip, deflate"])]⟩ = true ∧
    Spec.clientAcceptsGzip ⟨⟨"/"⟩, [("Accept-Encoding", ["deflate, gzip;q=0.5"])]⟩ = true ∧
    Spec.clientAcceptsGzip ⟨⟨"/"⟩, [("Accept-Encoding", ["deflate"])]⟩ = false ∧
    Spec.clientAcceptsGzip ⟨⟨"/"⟩, [("Accept-Encoding", ["xgzipx"])]⟩ = false ∧
    Spec.clientAcceptsGzip ⟨⟨"/"⟩, [("Accept-Encoding", ["gzip; q=0"])]⟩ = false ∧
    Spec.clientAcceptsGzip ⟨⟨"/"⟩, []⟩ = false := by
  decide

theorem headerAfter_emit (w : ResponseWriter) (h0 : Header) (s : World) (e : Event) :
    headerAfter w h0 (s.emit e).trace = Event.onHeader w (headerAfter w h0 s.trace) e := by
  simp [headerAfter, World.emit, List.foldl_append]

theorem headerAfter_snoc (w : ResponseWriter) (h0 : Header) (tr : List Event) (e : Event) :
    headerAfter w h0 (tr ++ [e]) = Event.onHeader w (headerAfter w h0 tr) e := by
  simp [headerAfter, List.foldl_append]

theorem GzipContent_plain (h : APIHandler) (ctx : Context) (w : ResponseWriter)
    (r : Request) (s : World)
    (hplain : strings.Contains (r.Header.Get "Accept-Encoding") "gzip" = false) :
    GzipContent h ctx w r s = h ctx w r (s.emit (.HeaderAdd w "Vary" "Accept-Encoding")) := by
  simp [GzipContent, hplain]

theorem GzipContent_gzip (h : APIHandler) (ctx : Context) (w : ResponseWriter)
    (r : Request) (s : World)
    (hgzip : strings.Contains (r.Header.Get "Accept-Encoding") "gzip" = true) :
    GzipContent h ctx w r s =
      (httputils.Close (.gzip s.nextId w)
        (h ctx (.gzip s.nextId w) r
          ⟨s.trace ++ [.HeaderAdd w "Vary" "Accept-Encoding",
            .HeaderSet w "Content-Encoding" "gzip",
            .NewGzipResponseWriter w (.gzip s.nextId w)], s.nextId + 1⟩).1,
       (h ctx (.gzip s.nextId w) r
          ⟨s.trace ++ [.HeaderAdd w "Vary" "Accept-Encoding",
            .HeaderSet w "Content-Encoding" "gzip",
            .NewGzipResponseWriter w (.gzip s.nextId w)], s.nextId + 1⟩).2) := by
  simp [GzipContent, hgzip, httputils.NewGzipResponseWriter, World.emit]

/-! ## The claims -/

/-- C1: when the context carries a session record and a route whose
`RequiredRoles` list is not empty, and the session holds none of the listed
roles, `Authorize h` calls `http.Error` with the text `Forbidden` and the code
403 on `w`, returns nil, and does not invoke `h`: the result does not depend on
`h`, one status 403 and one body line are written, and a recording handler
records no call. -/
theorem Authorize_forbidden (h : APIHandler) (ctx : Context) (w : ResponseWriter)
    (r : Request) (s : World) (sd : SessionData) (route : Route)
    (hsd : ctx.Value "sessionData" = some (.sessionData (some sd)))
    (hroute : ctx.Value "route" = some (.route route))
    (hne : route.RequiredRoles ≠ [])
    (hadmin : ¬ ("ADMIN" ∈ route.RequiredRoles ∧ sd.IsAdmin = true))
    (hteacher : ¬ ("TEACHER" ∈ route.RequiredRoles ∧ sd.IsTeacher = true)) :
    Authorize h ctx w r s = (http.Error w "Forbidden" 403 s, .returned none) ∧
    statusWrites w (Authorize h ctx w r s).1.trace = statusWrites w s.trace ++ [403] ∧
    bodyWrites w (Authorize h ctx w r s).1.trace = bodyWrites w s.trace ++ ["Forbidden\n"] ∧
    ∀ out, callCount (Authorize (spy out) ctx w r s).1.trace = callCount s.trace := by
  have hlen : ¬ route.RequiredRoles.length = 0 := by
    simpa [List.length_eq_zero] using hne
  have key : ∀ g : APIHandler,
      Authorize g ctx w r s = (http.Error w "Forbidden" 403 s, .returned none) := by
    intro g
    rw [Authorize_unfold g ctx w r s (some sd) route hsd hroute, if_neg hlen,
      Authorize.loop_none g ctx w r sd s _ hadmin hteacher]
    rfl
  refine ⟨key h, ?_, ?_, ?_⟩
  · rw [key h]; exact statusWrites_Error w _ _ s
  · rw [key h]; exact bodyWrites_Error w _ _ s
  · intro out
    rw [key (spy out)]; exact callCount_Error w _ _ s

/-- Witness of C1: a session without roles on a route for `ADMIN` and
`TEACHER`. -/
theorem Authorize_forbidden_witness :
    Authorize (spy (.returned none))
        (.WithValue (.WithValue .Background "sessionData"
          (some (.sessionData (some ⟨7, false, false⟩))))
          "route" (some (.route ⟨["ADMIN", "TEACHER"]⟩)))
        (.conn 0) ⟨⟨"/users"⟩, []⟩ ⟨[], 0⟩
      = (http.Error (.conn 0) "Forbidden" 403 ⟨[], 0⟩, .returned none) :=
  (Authorize_forbidden (spy (.returned none))
    (.WithValue (.WithValue .Background "sessionData"
      (some (.sessionData (some ⟨7, false, false⟩))))
      "route" (some (.route ⟨["ADMIN", "TEACHER"]⟩)))
    (.conn 0) ⟨⟨"/users"⟩, []⟩ ⟨[], 0⟩ ⟨7, false, false⟩ ⟨["ADMIN", "TEACHER"]⟩
    rfl rfl (by decide) (by decide) (by decide)).1

/-- C2: when the context carries a session record and a route whose
`RequiredRoles` list is not empty, and the session holds at least one listed
role, `Authorize h` is exactly one call `h ctx w r` in the unchanged world and
returns its result: a recording handler records one call, with the same
context, writer and request, and no status is written. -/
theorem Authorize_granted (h : APIHandler) (ctx : Context) (w : ResponseWriter)
    (r : Request) (s : World) (sd : SessionData) (route : Route)
    (hsd : ctx.Value "sessionData" = some (.sessionData (some sd)))
    (hroute : ctx.Value "route" = some (.route route))
    (hne : route.RequiredRoles ≠ [])
    (hrole : ("ADMIN" ∈ route.RequiredRoles ∧ sd.IsAdmin = true) ∨
      ("TEACHER" ∈ route.RequiredRoles ∧ sd.IsTeacher = true)) :
    Authorize h ctx w r s = h ctx w r s ∧
    ∀ out, Authorize (spy out) ctx w r s = (s.emit (.Handled ctx w r), out) ∧
      callCount (Authorize (spy out) ctx w r s).1.trace = callCount s.trace + 1 ∧
      statusWrites w (Authorize (spy out) ctx w r s).1.trace = statusWrites w s.trace := by
  have hlen : ¬ route.RequiredRoles.length = 0 := by
    simpa [List.length_eq_zero] using hne
  have key : ∀ g : APIHandler, Authorize g ctx w r s = g ctx w r s := by
    intro g
    rw [Authorize_unfold g ctx w r s (some sd) route hsd hroute, if_neg hlen,
      Authorize.loop_some g ctx w r sd s _ hrole]
  refine ⟨key h, fun out => ?_⟩
  rw [key (spy out)]
  simp [spy, World.emit, callCount, statusWrites, List.countP_append,
    List.filterMap_append, Event.isHandled, Event.statusOn]

/-- Witness of C2: a teacher on a route for `ADMIN` and `TEACHER`. -/
theorem Authorize_granted_witness :
    Authorize (spy (.returned none))
        (.WithValue (.WithValue .Background "sessionData"
          (some (.sessionData (some ⟨7, false, true⟩))))
          "route" (some (.route ⟨["ADMIN", "TEACHER"]⟩)))
        (.conn 0) ⟨⟨"/users"⟩, []⟩ ⟨[], 0⟩
      = spy (.returned none)
        (.WithValue (.WithValue .Background "sessionData"
          (some (.sessionData (some ⟨7, false, true⟩))))
          "route" (some (.route ⟨["ADMIN", "TEACHER"]⟩)))
        (.conn 0) ⟨⟨"/users"⟩, []⟩ ⟨[], 0⟩ :=
  (Authorize_granted (spy (.returned none))
    (.WithValue (.WithValue .Background "sessionData"
      (some (.sessionData (some ⟨7, false, true⟩))))
      "route" (some (.route ⟨["ADMIN", "TEACHER"]⟩)))
    (.conn 0) ⟨⟨"/users"⟩, []⟩ ⟨[], 0⟩ ⟨7, false, true⟩ ⟨["ADMIN", "TEACHER"]⟩
    rfl rfl (by decide) (Or.inr (by decide))).1

/-- C8: when the context carries a session record and a route whose
`RequiredRoles` list is empty, `Authorize h` is exactly one call `h ctx w r`
in the unchanged world and returns its result, whatever the two role flags
are: a recording handler records one call with the same context, writer and
request. -/
theorem Authorize_no_roles (h : APIHandler) (ctx : Context) (w : ResponseWriter)
    (r : Request) (s : World) (sd : SessionData) (route : Route)
    (hsd : ctx.Value "sessionData" = some (.sessionData (some sd)))
    (hroute : ctx.Value "route" = some (.route route))
    (hempty : route.RequiredRoles = []) :
    Authorize h ctx w r s = h ctx w r s ∧
    ∀ out, Authorize (spy out) ctx w r s = (s.emit (.Handled ctx w r), out) ∧
      callCount (Authorize (spy out) ctx w r s).1.trace = callCount s.trace + 1 := by
  have key : ∀ g : APIHandler, Authorize g ctx w r s = g ctx w r s := by
    intro g
    rw [Authorize_unfold g ctx w r s (some sd) route hsd hroute, hempty]
    rfl
  refine ⟨key h, fun out => ?_⟩
  rw [key (spy out)]
  simp [spy, World.emit, callCount, List.countP_append, Event.isHandled]

/-- Witness of C8: a session without roles on a route that requires none. -/
theorem Authorize_no_roles_witness :
    Authorize (spy (.returned none))
        (.WithValue (.WithValue .Background "sessionData"
          (some (.sessionData (some ⟨7, false, false⟩))))
          "route" (some (.route ⟨[]⟩)))
        (.conn 0) ⟨⟨"/home"⟩, []⟩ ⟨[], 0⟩
      = spy (.returned none)
        (.WithValue (.WithValue .Background "sessionData"
          (some (.sessionData (some ⟨7, false, false⟩))))
          "route" (some (.route ⟨[]⟩)))
        (.conn 0) ⟨⟨"/home"⟩, []⟩ ⟨[], 0⟩ :=
  (Authorize_no_roles (spy (.returned none))
    (.WithValue (.WithValue .Background "sessionData"
      (some (.sessionData (some ⟨7, false, false⟩))))
      "route" (some (.route ⟨[]⟩)))
    (.conn 0) ⟨⟨"/home"⟩, []⟩ ⟨[], 0⟩ ⟨7, false, false⟩ ⟨[]⟩ rfl rfl rfl).1

/-- C3: when the cookie store is in the context and either `Get` returns an
error or the session has no value of type `*SessionData` under `data`,
`ValidateAuth h` calls `http.Error` with the text `Unauthorized` and the code
401 on `w` (after logging the error of `Get`, if any), returns nil and does not
invoke `h`: one status 401 and the body line `Unauthorized` are written, and a
recording handler records no call. -/
theorem ValidateAuth_unauthorized (name : String) (h : APIHandler) (ctx : Context)
    (w : ResponseWriter) (r : Request) (s : World) (store : CookieStore)
    (hstore : ctx.Value "cookieStore" = some (.cookieStore (some store)))
    (hinvalid : (∃ err, (store.Get r name).2 = some err) ∨
      (∃ session, store.Get r name = (some session, none) ∧
        ∀ p, session.Values.lookup "data" ≠ some (.sessionData p))) :
    (∃ s0, (s0 = s ∨ ∃ err, s0 = log.Println err s) ∧
      ∀ g : APIHandler, ValidateAuth name g ctx w r s =
        (http.Error w "Unauthorized" 401 s0, .returned none)) ∧
    statusWrites w (ValidateAuth name h ctx w r s).1.trace = statusWrites w s.trace ++ [401] ∧
    bodyWrites w (ValidateAuth name h ctx w r s).1.trace
      = bodyWrites w s.trace ++ ["Unauthorized\n"] ∧
    ∀ out, callCount (ValidateAuth name (spy out) ctx w r s).1.trace = callCount s.trace := by
  have key : ∃ s0, (s0 = s ∨ ∃ err, s0 = log.Println err s) ∧
      ∀ g : APIHandler, ValidateAuth name g ctx w r s =
        (http.Error w "Unauthorized" 401 s0, .returned none) := by
    rcases hinvalid with ⟨err, herr⟩ | ⟨session, hget, hdata⟩
    · refine ⟨log.Println err s, Or.inr ⟨err, rfl⟩, fun g => ?_⟩
      rw [ValidateAuth_unfold name g ctx w r s store hstore]
      rcases hg : store.Get r name with ⟨a, b⟩
      rw [hg] at herr
      simp only at herr
      subst herr
      cases a <;> rfl
    · refine ⟨s, Or.inl rfl, fun g => ?_⟩
      rw [ValidateAuth_unfold name g ctx w r s store hstore, hget]
      simp only [assertSessionValue_none _ hdata]
      rfl
  obtain ⟨s0, hs0, hall⟩ := key
  refine ⟨⟨s0, hs0, hall⟩, ?_, ?_, ?_⟩
  · rw [hall h, statusWrites_Error]
    rcases hs0 with rfl | ⟨err, rfl⟩
    · rfl
    · rw [statusWrites_Println]
  · rw [hall h, bodyWrites_Error]
    rcases hs0 with rfl | ⟨err, rfl⟩
    · rfl
    · rw [bodyWrites_Println]
      rfl
  · intro out
    rw [hall (spy out), callCount_Error]
    rcases hs0 with rfl | ⟨err, rfl⟩
    · rfl
    · rw [callCount_Println]

/-- Witness of C3: a store whose session has no `data` value. -/
theorem ValidateAuth_unauthorized_witness :
    statusWrites (.conn 0)
        (ValidateAuth "abcd" (spy (.returned none))
          (.WithValue .Background "cookieStore"
            (some (.cookieStore (some ⟨fun _ _ => (some ⟨[]⟩, none)⟩))))
          (.conn 0) ⟨⟨"/users"⟩, []⟩ ⟨[], 0⟩).1.trace
      = statusWrites (.conn 0) [] ++ [401] :=
  (ValidateAuth_unauthorized "abcd" (spy (.returned none))
    (.WithValue .Background "cookieStore"
      (some (.cookieStore (some ⟨fun _ _ => (some ⟨[]⟩, none)⟩))))
    (.conn 0) ⟨⟨"/users"⟩, []⟩ ⟨[], 0⟩ ⟨fun _ _ => (some ⟨[]⟩, none)⟩ rfl
    (Or.inr ⟨⟨[]⟩, rfl, fun _ hc => by simp at hc⟩)).2.1

/-- C4: when the cookie store is in the context, `Get` returns a session
without error and the session holds a session record under `data`,
`ValidateAuth h` is exactly one call of `h`, with the same writer and request
in the unchanged world and with the context `context.WithValue(ctx,
"sessionData", record)`, and returns its result.  In that context
`sessionData` is bound to the record and every other key has the value it has
in `ctx`; `ctx` is the parent of the new context and is not changed. -/
theorem ValidateAuth_authenticated (name : String) (h : APIHandler) (ctx : Context)
    (w : ResponseWriter) (r : Request) (s : World) (store : CookieStore)
    (session : Session) (sd : SessionData)
    (hstore : ctx.Value "cookieStore" = some (.cookieStore (some store)))
    (hget : store.Get r name = (some session, none))
    (hdata : session.Values.lookup "data" = some (.sessionData (some sd))) :
    ∃ authenticatedContext : Context,
      authenticatedContext = Context.WithValue ctx "sessionData" (some (.sessionData (some sd))) ∧
      ValidateAuth name h ctx w r s = h authenticatedContext w r s ∧
      authenticatedContext.Value "sessionData" = some (.sessionData (some sd)) ∧
      (∀ key, key ≠ "sessionData" → authenticatedContext.Value key = ctx.Value key) ∧
      ∀ out, ValidateAuth name (spy out) ctx w r s
          = (s.emit (.Handled authenticatedContext w r), out) ∧
        callCount (ValidateAuth name (spy out) ctx w r s).1.trace = callCount s.trace + 1 := by
  have key : ∀ g : APIHandler, ValidateAuth name g ctx w r s =
      g (Context.WithValue ctx "sessionData" (some (.sessionData (some sd)))) w r s := by
    intro g
    rw [ValidateAuth_unfold name g ctx w r s store hstore, hget]
    simp only [hdata, assertSessionValue]
  refine ⟨_, rfl, key h, ?_, ?_, fun out => ?_⟩
  · simp [Context.Value]
  · intro k hk
    simp [Context.Value, hk]
  · rw [key (spy out)]
    simp [spy, World.emit, callCount, List.countP_append, Event.isHandled]

/-- Witness of C4: a store whose session holds the record of an administrator. -/
theorem ValidateAuth_authenticated_witness :
    ∃ authenticatedContext : Context,
      ValidateAuth "abcd" (spy (.returned none))
          (.WithValue .Background "cookieStore" (some (.cookieStore (some
            ⟨fun _ _ => (some ⟨[("data", .sessionData (some ⟨7, true, false⟩))]⟩, none)⟩))))
          (.conn 0) ⟨⟨"/users"⟩, []⟩ ⟨[], 0⟩
        = spy (.returned none) authenticatedContext (.conn 0) ⟨⟨"/users"⟩, []⟩ ⟨[], 0⟩ ∧
      authenticatedContext.Value "sessionData" = some (.sessionData (some ⟨7, true, false⟩)) :=
  let ⟨c, _, h2, h3, _⟩ := ValidateAuth_authenticated "abcd" (spy (.returned none))
    (.WithValue .Background "cookieStore" (some (.cookieStore (some
      ⟨fun _ _ => (some ⟨[("data", .sessionData (some ⟨7, true, false⟩))]⟩, none)⟩))))
    (.conn 0) ⟨⟨"/users"⟩, []⟩ ⟨[], 0⟩
    ⟨fun _ _ => (some ⟨[("data", .sessionData (some ⟨7, true, false⟩))]⟩, none)⟩
    ⟨[("data", .sessionData (some ⟨7, true, false⟩))]⟩ ⟨7, true, false⟩ rfl rfl rfl
  ⟨c, h2, h3⟩

/-- C5: when the request path ends in `/`, `NoDirListing h` calls
`http.NotFound`, which writes the status 404 on `w`, returns nil and does not
invoke `h` (a recording handler records no call); when the path does not end in
`/`, `NoDirListing h` is exactly the call `h ctx w r` in the unchanged world,
with the same final world and the same returned error. -/
theorem NoDirListing_spec (h : APIHandler) (ctx : Context) (w : ResponseWriter)
    (r : Request) (s : World) :
    ((∃ p : String, r.URL.Path = p ++ "/") →
      (∀ g : APIHandler, NoDirListing g ctx w r s
        = (http.Error w "404 page not found" 404 s, .returned none)) ∧
      statusWrites w (NoDirListing h ctx w r s).1.trace = statusWrites w s.trace ++ [404] ∧
      ∀ out, callCount (NoDirListing (spy out) ctx w r s).1.trace = callCount s.trace) ∧
    ((¬ ∃ p : String, r.URL.Path = p ++ "/") →
      NoDirListing h ctx w r s = h ctx w r s) := by
  constructor
  · intro hp
    have hs : strings.HasSuffix r.URL.Path "/" = true := (strings.HasSuffix_slash _).2 hp
    have key : ∀ g : APIHandler, NoDirListing g ctx w r s
        = (http.Error w "404 page not found" 404 s, .returned none) := by
      intro g
      simp only [NoDirListing, hs, if_true]
      rfl
    refine ⟨key, ?_, fun out => ?_⟩
    · rw [key h]; exact statusWrites_Error w _ _ s
    · rw [key (spy out)]; exact callCount_Error w _ _ s
  · intro hp
    have hs : strings.HasSuffix r.URL.Path "/" = false :=
      Bool.eq_false_iff.2 (fun hc => hp ((strings.HasSuffix_slash _).1 hc))
    simp [NoDirListing, hs]

/-- Witness of C5: the path `/files/` is refused and the path `/files/a.css`
is handed on. -/
theorem NoDirListing_spec_witness :
    statusWrites (.conn 0)
        (NoDirListing (spy (.returned none)) .Background (.conn 0)
          ⟨⟨"/files/"⟩, []⟩ ⟨[], 0⟩).1.trace = statusWrites (.conn 0) [] ++ [404] ∧
    NoDirListing (spy (.returned none)) .Background (.conn 0) ⟨⟨"/files/a.css"⟩, []⟩ ⟨[], 0⟩
      = spy (.returned none) .Background (.conn 0) ⟨⟨"/files/a.css"⟩, []⟩ ⟨[], 0⟩ :=
  ⟨((NoDirListing_spec (spy (.returned none)) .Background (.conn 0)
      ⟨⟨"/files/"⟩, []⟩ ⟨[], 0⟩).1 ⟨"/files", by decide⟩).2.1,
   (NoDirListing_spec (spy (.returned none)) .Background (.conn 0)
      ⟨⟨"/files/a.css"⟩, []⟩ ⟨[], 0⟩).2
      (fun hc => by
        have := (strings.HasSuffix_slash _).2 hc
        revert this
        decide)⟩

/-- C9, as amended: a failed cast is returned as an error.  When the context
holds no value of type `*SessionData` under `sessionData` (a nil pointer of
that type is such a value), or no `Route` under `route`, `Authorize h` returns
a non-nil error and leaves the world as it was; when the context holds no value
of type `*sessions.CookieStore` under `cookieStore` (again the nil pointer is
such a value), `ValidateAuth h` does the same.  In both cases nothing is
written to `w` and `h` is not invoked: the result is the same for every `h`. -/
theorem wiring_fault_is_error (name : String) (ctx : Context) (w : ResponseWriter)
    (r : Request) (s : World) :
    (((∀ p, ctx.Value "sessionData" ≠ some (.sessionData p)) ∨
        (∀ route, ctx.Value "route" ≠ some (.route route))) →
      ∃ err : GoError, ∀ h : APIHandler,
        Authorize h ctx w r s = (s, .returned (some err))) ∧
    ((∀ p, ctx.Value "cookieStore" ≠ some (.cookieStore p)) →
      ∃ err : GoError, ∀ h : APIHandler,
        ValidateAuth name h ctx w r s = (s, .returned (some err))) := by
  constructor
  · rintro (hsd | hroute)
    · exact ⟨fmt.Errorf "authorize: could not cast value as session data:",
        fun h => by simp only [Authorize, assertSessionData_none _ hsd]⟩
    · cases hv : assertSessionData (ctx.Value "sessionData") with
      | none =>
        exact ⟨fmt.Errorf "authorize: could not cast value as session data:",
          fun h => by simp only [Authorize, hv]⟩
      | some p =>
        exact ⟨fmt.Errorf "authorize: could not cast value as route:",
          fun h => by simp only [Authorize, hv, assertRoute_none _ hroute]⟩
  · intro hcs
    exact ⟨fmt.Errorf "validate auth: could not cast value as cookie store:",
      fun h => by simp only [ValidateAuth, assertCookieStore_none _ hcs]⟩

/-- C9 as stated fails when `sessionData` is bound to a nil `*SessionData`: the
context carries no session record, the cast succeeds, and on a route that
requires the role `OTHER` `Authorize` writes the status 403 and returns nil
instead of an error. -/
theorem wiring_fault_nil_session_gets_403 :
    (¬ ∃ sd : SessionData,
      Context.Value (.WithValue (.WithValue .Background "sessionData" (some (.sessionData none)))
        "route" (some (.route ⟨["OTHER"]⟩))) "sessionData" = some (.sessionData (some sd))) ∧
    Authorize (spy (.returned none))
        (.WithValue (.WithValue .Background "sessionData" (some (.sessionData none)))
          "route" (some (.route ⟨["OTHER"]⟩)))
        (.conn 0) ⟨⟨"/users"⟩, []⟩ ⟨[], 0⟩
      = (http.Error (.conn 0) "Forbidden" 403 ⟨[], 0⟩, .returned none) ∧
    statusWrites (.conn 0)
        (Authorize (spy (.returned none))
          (.WithValue (.WithValue .Background "sessionData" (some (.sessionData none)))
            "route" (some (.route ⟨["OTHER"]⟩)))
          (.conn 0) ⟨⟨"/users"⟩, []⟩ ⟨[], 0⟩).1.trace = [403] ∧
    ¬ ∃ err : GoError,
      (Authorize (spy (.returned none))
        (.WithValue (.WithValue .Background "sessionData" (some (.sessionData none)))
          "route" (some (.route ⟨["OTHER"]⟩)))
        (.conn 0) ⟨⟨"/users"⟩, []⟩ ⟨[], 0⟩).2 = .returned (some err) := by
  refine ⟨?_, rfl, rfl, ?_⟩
  · rintro ⟨sd, hsd⟩
    simp [Context.Value] at hsd
  · rintro ⟨err, herr⟩
    have hrun : (Authorize (spy (.returned none))
        (.WithValue (.WithValue .Background "sessionData" (some (.sessionData none)))
          "route" (some (.route ⟨["OTHER"]⟩)))
        (.conn 0) ⟨⟨"/users"⟩, []⟩ ⟨[], 0⟩).2 = .returned none := rfl
    rw [hrun] at herr
    simp at herr

/-- Witness of C9: the empty context has none of the three values. -/
theorem wiring_fault_is_error_witness :
    (∃ err : GoError, ∀ h : APIHandler,
      Authorize h .Background (.conn 0) ⟨⟨"/users"⟩, []⟩ ⟨[], 0⟩
        = (⟨[], 0⟩, .returned (some err))) ∧
    (∃ err : GoError, ∀ h : APIHandler,
      ValidateAuth "abcd" h .Background (.conn 0) ⟨⟨"/users"⟩, []⟩ ⟨[], 0⟩
        = (⟨[], 0⟩, .returned (some err))) :=
  ⟨(wiring_fault_is_error "abcd" .Background (.conn 0) ⟨⟨"/users"⟩, []⟩ ⟨[], 0⟩).1
      (Or.inl (fun _ hc => by simp [Context.Value] at hc)),
   (wiring_fault_is_error "abcd" .Background (.conn 0) ⟨⟨"/users"⟩, []⟩ ⟨[], 0⟩).2
      (fun _ hc => by simp [Context.Value] at hc)⟩

/-- C6: when the `Accept-Encoding` header of the request contains `gzip`,
`GzipContent h` creates one compressing writer, calls `h` with it, and calls
`Close` on it once, as its last action, after `h` has come back and whatever
`h` returned (nil, an error, or a panic): the final trace is the trace `h` left
followed by that one `Close`, and the outcome of `h` is handed on.  With a
recording handler the whole trace is the two header calls, the creation of the
writer, the call of the handler and one `Close`. -/
theorem GzipContent_closes_once (h : APIHandler) (ctx : Context) (w : ResponseWriter)
    (r : Request) (s : World)
    (hgzip : "gzip".data <:+: (r.Header.Get "Accept-Encoding").data) :
    ∃ (gz : ResponseWriter) (s2 : World),
      (gz, s2) = httputils.NewGzipResponseWriter w
        ((s.emit (.HeaderAdd w "Vary" "Accept-Encoding")).emit
          (.HeaderSet w "Content-Encoding" "gzip")) ∧
      (GzipContent h ctx w r s).1.trace = (h ctx gz r s2).1.trace ++ [.Close gz] ∧
      (GzipContent h ctx w r s).2 = (h ctx gz r s2).2 ∧
      closeCount gz (GzipContent h ctx w r s).1.trace
        = closeCount gz (h ctx gz r s2).1.trace + 1 ∧
      ∀ out : Outcome,
        (GzipContent (spy out) ctx w r s).1.trace
          = s.trace ++ [.HeaderAdd w "Vary" "Accept-Encoding",
              .HeaderSet w "Content-Encoding" "gzip",
              .NewGzipResponseWriter w gz, .Handled ctx gz r, .Close gz] ∧
        (GzipContent (spy out) ctx w r s).2 = out ∧
        closeCount gz (GzipContent (spy out) ctx w r s).1.trace
          = closeCount gz s.trace + 1 := by
  have hc : strings.Contains (r.Header.Get "Accept-Encoding") "gzip" = true :=
    (strings.Contains_iff _ _).2 hgzip
  refine ⟨.gzip s.nextId w, _, rfl, ?_, ?_, ?_, fun out => ⟨?_, ?_, ?_⟩⟩
  · rw [GzipContent_gzip h ctx w r s hc]
    simp [httputils.NewGzipResponseWriter, httputils.Close, World.emit]
  · rw [GzipContent_gzip h ctx w r s hc]
    simp [httputils.NewGzipResponseWriter, World.emit]
  · rw [GzipContent_gzip h ctx w r s hc]
    simp [httputils.NewGzipResponseWriter, httputils.Close, World.emit, closeCount,
      List.countP_append, Event.isClose]
  · rw [GzipContent_gzip (spy out) ctx w r s hc]
    simp [httputils.Close, World.emit, spy]
  · rw [GzipContent_gzip (spy out) ctx w r s hc]
    simp [spy]
  · rw [GzipContent_gzip (spy out) ctx w r s hc]
    simp [httputils.Close, World.emit, spy, closeCount, List.countP_append, Event.isClose]

/-- Witness of C6: a request that accepts `gzip, deflate`, with a handler that
returns an error. -/
theorem GzipContent_closes_once_witness :
    ∃ (gz : ResponseWriter) (s2 : World),
      (gz, s2) = httputils.NewGzipResponseWriter (.conn 0)
        (((⟨[], 0⟩ : World).emit (.HeaderAdd (.conn 0) "Vary" "Accept-Encoding")).emit
          (.HeaderSet (.conn 0) "Content-Encoding" "gzip")) ∧
      closeCount gz (GzipContent (spy (.returned (some ⟨"boom"⟩))) .Background (.conn 0)
          ⟨⟨"/users"⟩, [("Accept-Encoding", ["gzip, deflate"])]⟩ ⟨[], 0⟩).1.trace
        = closeCount gz (spy (.returned (some ⟨"boom"⟩)) .Background gz
          ⟨⟨"/users"⟩, [("Accept-Encoding", ["gzip, deflate"])]⟩ s2).1.trace + 1 :=
  let ⟨gz, s2, h1, _, _, h4, _⟩ :=
    GzipContent_closes_once (spy (.returned (some ⟨"boom"⟩))) .Background (.conn 0)
      ⟨⟨"/users"⟩, [("Accept-Encoding", ["gzip, deflate"])]⟩ ⟨[], 0⟩
      ⟨[], ", deflate".data, rfl⟩
  ⟨gz, s2, h1, h4⟩

/-- C7, as amended: `GzipContent h` first adds `Accept-Encoding` to the values
of the response header `Vary` of `w`, whatever the request accepts.  When the
first `Accept-Encoding` value of the request does not contain the text `gzip`,
it then is the call `h ctx w r` with the original writer, and the
`Content-Encoding` values of `w` are what they were.  When that value contains
the text `gzip` anywhere, the header `Content-Encoding` of `w` is set to `gzip`
and `h` is called with a new compressing writer around `w`, which is closed
afterwards. -/
theorem GzipContent_headers (h : APIHandler) (ctx : Context) (w : ResponseWriter)
    (r : Request) (s : World) :
    ((¬ "gzip".data <:+: (r.Header.Get "Accept-Encoding").data) →
      ∃ s1 : World, s1 = s.emit (.HeaderAdd w "Vary" "Accept-Encoding") ∧
        GzipContent h ctx w r s = h ctx w r s1 ∧
        ∀ h0 : Header,
          Header.Values (headerAfter w h0 s1.trace) "Vary"
            = Header.Values (headerAfter w h0 s.trace) "Vary" ++ ["Accept-Encoding"] ∧
          Header.Values (headerAfter w h0 s1.trace) "Content-Encoding"
            = Header.Values (headerAfter w h0 s.trace) "Content-Encoding") ∧
    (("gzip".data <:+: (r.Header.Get "Accept-Encoding").data) →
      ∃ (gz : ResponseWriter) (s2 : World),
        gz = .gzip s.nextId w ∧
        s2 = ⟨s.trace ++ [.HeaderAdd w "Vary" "Accept-Encoding",
          .HeaderSet w "Content-Encoding" "gzip", .NewGzipResponseWriter w gz], s.nextId + 1⟩ ∧
        GzipContent h ctx w r s = (httputils.Close gz (h ctx gz r s2).1, (h ctx gz r s2).2) ∧
        ∀ h0 : Header,
          Header.Values (headerAfter w h0 s2.trace) "Vary"
            = Header.Values (headerAfter w h0 s.trace) "Vary" ++ ["Accept-Encoding"] ∧
          Header.Values (headerAfter w h0 s2.trace) "Content-Encoding" = ["gzip"] ∧
          Header.Get (headerAfter w h0 s2.trace) "Content-Encoding" = "gzip") := by
  constructor
  · intro hno
    have hc : strings.Contains (r.Header.Get "Accept-Encoding") "gzip" = false :=
      Bool.eq_false_iff.2 (fun hx => hno ((strings.Contains_iff _ _).1 hx))
    refine ⟨_, rfl, GzipContent_plain h ctx w r s hc, fun h0 => ⟨?_, ?_⟩⟩
    · simp [headerAfter_emit, Event.onHeader, Header.Values_Add_self]
    · simp only [headerAfter_emit, Event.onHeader, if_true]
      exact Header.Values_Add_ne _ _ _ _ (by decide)
  · intro hyes
    have hc : strings.Contains (r.Header.Get "Accept-Encoding") "gzip" = true :=
      (strings.Contains_iff _ _).2 hyes
    refine ⟨_, _, rfl, rfl, GzipContent_gzip h ctx w r s hc, fun h0 => ?_⟩
    have e : s.trace ++ [Event.HeaderAdd w "Vary" "Accept-Encoding",
          Event.HeaderSet w "Content-Encoding" "gzip",
          Event.NewGzipResponseWriter w (.gzip s.nextId w)]
        = ((s.trace ++ [Event.HeaderAdd w "Vary" "Accept-Encoding"]) ++
          [Event.HeaderSet w "Content-Encoding" "gzip"]) ++
          [Event.NewGzipResponseWriter w (.gzip s.nextId w)] := by simp
    simp only [e, headerAfter_snoc, Event.onHeader, if_true]
    refine ⟨?_, ?_, ?_⟩
    · rw [Header.Values_Set_ne _ _ _ _ (by decide), Header.Values_Add_self]
    · rw [Header.Values_Set_self]
    · simp [Header.Get, Header.Values_Set_self]

/-- Witness of C7: a request without `Accept-Encoding` keeps its writer, and a
request that accepts `gzip` gets the header `Content-Encoding: gzip` and a
compressing writer. -/
theorem GzipContent_headers_witness :
    (∃ s1 : World,
      GzipContent (spy (.returned none)) .Background (.conn 0) ⟨⟨"/users"⟩, []⟩ ⟨[], 0⟩
        = spy (.returned none) .Background (.conn 0) ⟨⟨"/users"⟩, []⟩ s1) ∧
    (∃ (gz : ResponseWriter) (s2 : World), gz = .gzip 0 (.conn 0) ∧
      GzipContent (spy (.returned none)) .Background (.conn 0)
          ⟨⟨"/users"⟩, [("Accept-Encoding", ["gzip"])]⟩ ⟨[], 0⟩
        = (httputils.Close gz (spy (.returned none) .Background gz
              ⟨⟨"/users"⟩, [("Accept-Encoding", ["gzip"])]⟩ s2).1,
            (spy (.returned none) .Background gz
              ⟨⟨"/users"⟩, [("Accept-Encoding", ["gzip"])]⟩ s2).2) ∧
      Header.Get (headerAfter (.conn 0) [] s2.trace) "Content-Encoding" = "gzip") :=
  ⟨Exists.elim ((GzipContent_headers (spy (.returned none)) .Background (.conn 0)
      ⟨⟨"/users"⟩, []⟩ ⟨[], 0⟩).1 (by decide))
      (fun s1 hs => ⟨s1, hs.2.1⟩),
   Exists.elim ((GzipContent_headers (spy (.returned none)) .Background
      (.conn 0) ⟨⟨"/users"⟩, [("Accept-Encoding", ["gzip"])]⟩ ⟨[], 0⟩).2 ⟨[], [], rfl⟩)
      (fun gz hg => Exists.elim hg (fun s2 hs =>
        ⟨gz, s2, hs.1, hs.2.2.1, (hs.2.2.2 []).2.2⟩))⟩

/-- C7 as stated fails on a request that refuses gzip with `gzip;q=0`: the
client's accepted encodings do not include gzip, yet `GzipContent` sets
`Content-Encoding: gzip` on `w` and calls the handler with a compressing writer
instead of `w`. -/
theorem GzipContent_compresses_refused_gzip :
    Spec.clientAcceptsGzip ⟨⟨"/users"⟩, [("Accept-Encoding", ["gzip;q=0"])]⟩ = false ∧
    GzipContent (spy (.returned none)) .Background (.conn 0)
        ⟨⟨"/users"⟩, [("Accept-Encoding", ["gzip;q=0"])]⟩ ⟨[], 0⟩
      = (⟨[.HeaderAdd (.conn 0) "Vary" "Accept-Encoding",
            .HeaderSet (.conn 0) "Content-Encoding" "gzip",
            .NewGzipResponseWriter (.conn 0) (.gzip 0 (.conn 0)),
            .Handled .Background (.gzip 0 (.conn 0))
              ⟨⟨"/users"⟩, [("Accept-Encoding", ["gzip;q=0"])]⟩,
            .Close (.gzip 0 (.conn 0))], 1⟩, .returned none) ∧
    Header.Get (headerAfter (.conn 0) []
        (GzipContent (spy (.returned none)) .Background (.conn 0)
          ⟨⟨"/users"⟩, [("Accept-Encoding", ["gzip;q=0"])]⟩ ⟨[], 0⟩).1.trace)
      "Content-Encoding" = "gzip" ∧
    GzipContent (spy (.returned none)) .Background (.conn 0)
        ⟨⟨"/users"⟩, [("Accept-Encoding", ["gzip;q=0"])]⟩ ⟨[], 0⟩
      ≠ spy (.returned none) .Background (.conn 0)
        ⟨⟨"/users"⟩, [("Accept-Encoding", ["gzip;q=0"])]⟩
        ((⟨[], 0⟩ : World).emit (.HeaderAdd (.conn 0) "Vary" "Accept-Encoding")) := by
  refine ⟨by decide, rfl, by decide, ?_⟩
  intro hc
  have hn := congrArg (fun p : World × Outcome => p.1.nextId) hc
  revert hn
  decide

/-- C10: `Create` does not look at the email.  With a stored user `alice`
whose email is `a@example.org`, `FindByEmail` finds that user, and `Create` of
a user `Bob` with the same email returns nil and inserts a second row with that
email. -/
theorem Create_ignores_duplicate_email :
    userService.FindByEmail ⟨⟨[aliceRow], 2, none⟩⟩ bobInput.Email = .ok (some aliceRow) ∧
    userService.Create sampleHasher ⟨⟨[aliceRow], 2, none⟩⟩ bobInput
      = (⟨⟨[aliceRow,
            ⟨2, "bob", "a@example.org", "$2a$10$secret", "Bob", "B", 0, false, false⟩],
          3, none⟩⟩,
        ⟨2, "bob", "a@example.org", "$2a$10$secret", "Bob", "B", 0, false, false⟩,
        none) := by
  exact ⟨rfl, rfl⟩

end Abcd

